import Mathlib

/-!
Shallow embedding of `src/app.py` (visa roadmap Streamlit app).

Strings are modelled as Lean `String` / `List Char`.  The remote-call
functions are modelled by making the outcome of the remote interaction an
explicit argument (the HTTP status and parsed body, or an exception), and
the Streamlit side effects (`st.warning`, `st.error`) an explicit list of
emitted effects in the result.
-/

namespace VisaRoadmap

/-- Python's whitespace set, as used by `str.split()` and `str.strip()`
(Unicode whitespace: ASCII whitespace, the ASCII separator controls,
NEL, NBSP and the Unicode space separators). -/
def pyIsSpace (c : Char) : Bool :=
  c.val ∈ ([9, 10, 11, 12, 13, 28, 29, 30, 31, 32, 133, 160, 5760,
    8192, 8193, 8194, 8195, 8196, 8197, 8198, 8199, 8200, 8201, 8202,
    8232, 8233, 8239, 8287, 12288] : List UInt32)

/-- Accumulator-based splitter behind `str.split()` (no argument): the
accumulator holds the current word reversed; whitespace runs separate
words and produce no empty fragments. -/
def pyWordsAux : List Char → List Char → List (List Char)
  | acc, [] => if acc = [] then [] else [acc.reverse]
  | acc, c :: rest =>
    if pyIsSpace c then
      if acc = [] then pyWordsAux [] rest
      else acc.reverse :: pyWordsAux [] rest
    else pyWordsAux (c :: acc) rest

/-- Python `s.split()`: the maximal whitespace-free runs of `s`, in order. -/
def pyWords (s : List Char) : List (List Char) := pyWordsAux [] s

/-- Python `" ".join(ws)`: words joined by single spaces. -/
def spaceJoin : List (List Char) → List Char
  | [] => []
  | [w] => w
  | w :: ws => w ++ ' ' :: spaceJoin ws

/-- The normalization `" ".join(s.split())` used at `app.py:44` and inside
`app.py:77`, on character lists. -/
def normalizeL (s : List Char) : List Char := spaceJoin (pyWords s)

/-- The normalization `" ".join(s.split())` on strings. -/
def normalize (s : String) : String := ⟨normalizeL s.data⟩

/-- Python `s.strip()` on character lists: drop whitespace from both ends. -/
def pyStripL (s : List Char) : List Char :=
  ((s.dropWhile pyIsSpace).reverse.dropWhile pyIsSpace).reverse

/-- Python `s.strip()` on strings. -/
def pyStrip (s : String) : String := ⟨pyStripL s.data⟩

/-- First character of the bullet delimiter `'â—'` at `app.py:129`:
U+00E2, LATIN SMALL LETTER A WITH CIRCUMFLEX. -/
def bc1 : Char := 'â'

/-- Second character of the bullet delimiter `'â—'` at `app.py:129`:
U+2014, EM DASH. -/
def bc2 : Char := '—'

/-- The two-character bullet delimiter `'â—'` of `app.py:129`. -/
def bulletDelim : List Char := [bc1, bc2]

/-- Python `s.split('â—')`, as a left-to-right scan for the leftmost
non-overlapping occurrences of the two-character delimiter.  The
accumulator holds the current fragment reversed.  Empty fragments are
kept, matching Python's `str.split` with an explicit separator. -/
def splitBulletAux : List Char → List Char → List (List Char)
  | acc, c :: d :: rest =>
    if c = bc1 ∧ d = bc2 then acc.reverse :: splitBulletAux [] rest
    else splitBulletAux (c :: acc) (d :: rest)
  | acc, s => [acc.reverse ++ s]

/-- Python `s.split('â—')` on character lists. -/
def splitBullet (s : List Char) : List (List Char) := splitBulletAux [] s

/-- `true` iff the two-character bullet delimiter occurs (as a contiguous
subsequence) in `s`. -/
def containsDelim : List Char → Bool
  | c :: d :: rest => (c = bc1 && d = bc2) || containsDelim (d :: rest)
  | _ => false

/-- The roadmap API response dictionary.  Each field is `none` when the
key is absent from the dictionary (Python `dict.get` with a default). -/
structure RoadmapDict where
  questionnaire : Option String
  job_roles : Option String
  noc_codes : Option (List String)
  crs_score : Option String
  roadmap : Option String
deriving DecidableEq

/-- The list items built from the questionnaire field at `app.py:128-131`:
split on the bullet delimiter; fragments that are empty after stripping
are skipped; the rest become `- <stripped fragment>\n`. -/
def questionnaireItems (q : String) : List String :=
  (splitBullet q.data).filterMap (fun line =>
    if pyStripL line = [] then none
    else some ("- " ++ String.mk (pyStripL line) ++ "\n"))

/-- One NOC list item at `app.py:139-140`: `- <stripped entry>\n`. -/
def nocItem (noc : String) : String := "- " ++ pyStrip noc ++ "\n"

/-- The list items built from the `noc_codes` field at `app.py:139-140`:
every entry becomes an item, with no filtering. -/
def nocItems (nocs : List String) : List String := nocs.map nocItem

/-- The list of blocks appended to `markdown_content` by
`convert_dict_to_markdown` (`app.py:114-151`), in order. -/
def convert_dict_to_markdown_blocks (d : RoadmapDict) : List String :=
  ["# Immigration Profile Report\n",
   "## 1. Questionnaire and Response:\n"]
  ++ questionnaireItems (d.questionnaire.getD "")
  ++ ["## 2. Job Roles Based on Education and Work Experience:\n",
      d.job_roles.getD "" ++ "\n",
      "## 3. NOC Codes:\n"]
  ++ nocItems (d.noc_codes.getD [])
  ++ ["## 4. CRS Score Breakdown:\n",
      d.crs_score.getD "" ++ "\n",
      "## 5. Roadmap for Canada Immigration:\n",
      d.roadmap.getD "" ++ "\n"]

/-- `convert_dict_to_markdown` (`app.py:114-151`): the blocks joined with
newlines (`"\n".join(markdown_content)`). -/
def convert_dict_to_markdown (d : RoadmapDict) : String :=
  String.intercalate "\n" (convert_dict_to_markdown_blocks d)

/-- A user-visible Streamlit message: `st.warning` or `st.error`. -/
inductive Effect where
  | warning (msg : String)
  | error (msg : String)
deriving DecidableEq

/-- Outcome of local PDF parsing with PyPDF2 inside
`fallback_extract_text`: either the per-page extracted texts, or an
exception with message `msg`. -/
inductive PdfParse where
  | ok (pages : List String)
  | raised (msg : String)
deriving DecidableEq

/-- Outcome of the OCR request inside `extract_text_from_pdf`: a response
with its status code and the optional `text` field of its JSON body
(`none` when the key is absent), or an exception (network failure or
unparseable body) with message `msg`. -/
inductive OcrResult where
  | response (status : Nat) (textField : Option String)
  | raised (msg : String)
deriving DecidableEq

/-- Outcome of the roadmap request inside `call_visa_roadmap_api`: a
response with its status code and parsed JSON body, or an exception with
message `msg`. -/
inductive ApiResult where
  | response (status : Nat) (body : RoadmapDict)
  | raised (msg : String)
deriving DecidableEq

/-- `fallback_extract_text` (`app.py:55-82`): concatenate the page texts
and normalize (`" ".join(text.split()).strip()`), or report an error and
return `""` when parsing raises.  Returns the result string together with
the emitted Streamlit effects. -/
def fallback_extract_text (parse : PdfParse) : String × List Effect :=
  match parse with
  | .ok pages => (pyStrip (normalize (String.join pages)), [])
  | .raised msg => ("", [.error ("Error in text extraction: " ++ msg)])

/-- `extract_text_from_pdf` (`app.py:7-53`): on HTTP 200 normalize the
`text` field of the body (default `""`); on any other status fall back to
`fallback_extract_text` without emitting anything; on an exception emit
the warning and fall back. -/
def extract_text_from_pdf (ocr : OcrResult) (parse : PdfParse) :
    String × List Effect :=
  match ocr with
  | .response status textField =>
    if status = 200 then (normalize (textField.getD ""), [])
    else fallback_extract_text parse
  | .raised _ =>
    let fb := fallback_extract_text parse
    (fb.1, .warning "Using fallback PDF extraction method" :: fb.2)

/-- `call_visa_roadmap_api` (`app.py:84-111`): 200 returns the parsed
body; 404 reports `API Error: Data Not Found (404)` and falls through to
the implicit `None`; other statuses report `API Error: <status>` and
return `None`; an exception reports `API Error: <msg>` and returns
`None`. -/
def call_visa_roadmap_api (r : ApiResult) : Option RoadmapDict × List Effect :=
  match r with
  | .response status body =>
    if status = 200 then (some body, [])
    else if status = 404 then
      (none, [.error ("API Error: Data Not Found (" ++ toString status ++ ")")])
    else (none, [.error ("API Error: " ++ toString status)])
  | .raised msg => (none, [.error ("API Error: " ++ msg)])

/-- The shape of normalized text: the only whitespace character is a
plain space, there are no two consecutive spaces, and the first and last
characters (when present) are not whitespace. -/
def noDoubleSpace : List Char → Bool
  | a :: b :: rest => !(a == ' ' && b == ' ') && noDoubleSpace (b :: rest)
  | _ => true

/-- A word produced by `str.split()`: nonempty and whitespace-free. -/
def goodWord (w : List Char) : Prop :=
  w ≠ [] ∧ ∀ c ∈ w, pyIsSpace c = false

/-- All words of a list are `goodWord`s. -/
def goodWords (ws : List (List Char)) : Prop := ∀ w ∈ ws, goodWord w

/-- The single-line invariant of `ExtractedText`: every whitespace
character is a plain space, no two spaces are adjacent, and the ends are
not whitespace. -/
def singleSpaced (l : List Char) : Prop :=
  (∀ c ∈ l, pyIsSpace c = true → c = ' ') ∧
  noDoubleSpace l = true ∧
  (∀ c, l.head? = some c → pyIsSpace c = false) ∧
  (∀ c, l.getLast? = some c → pyIsSpace c = false)

lemma pyIsSpace_space : pyIsSpace ' ' = true := by decide

lemma pyWordsAux_append_word (w : List Char)
    (hw : ∀ c ∈ w, pyIsSpace c = false) :
    ∀ acc s, pyWordsAux acc (w ++ s) = pyWordsAux (w.reverse ++ acc) s := by
  induction w with
  | nil => intro acc s; simp
  | cons c w ih =>
    intro acc s
    have hc : pyIsSpace c = false := hw c (by simp)
    have hw' : ∀ x ∈ w, pyIsSpace x = false := fun x hx => hw x (by simp [hx])
    simp [pyWordsAux, hc, ih hw']

lemma pyWordsAux_good :
    ∀ (s acc : List Char), (∀ c ∈ acc, pyIsSpace c = false) →
      ∀ w ∈ pyWordsAux acc s, goodWord w := by
  intro s
  induction s with
  | nil =>
    intro acc hacc w hw
    by_cases h : acc = [] <;> simp [pyWordsAux, h] at hw
    subst hw
    refine ⟨by simpa using h, ?_⟩
    intro c hc
    exact hacc c (List.mem_reverse.mp hc)
  | cons c s ih =>
    intro acc hacc w hw
    by_cases hc : pyIsSpace c
    · by_cases h : acc = []
      · rw [show pyWordsAux acc (c :: s) = pyWordsAux [] s by
          simp [pyWordsAux, hc, h]] at hw
        exact ih [] (by simp) w hw
      · rw [show pyWordsAux acc (c :: s) = acc.reverse :: pyWordsAux [] s by
          simp [pyWordsAux, hc, h]] at hw
        rcases List.mem_cons.mp hw with hw | hw
        · subst hw
          refine ⟨by simpa using h, ?_⟩
          intro x hx
          exact hacc x (List.mem_reverse.mp hx)
        · exact ih [] (by simp) w hw
    · rw [show pyWordsAux acc (c :: s) = pyWordsAux (c :: acc) s by
        simp [pyWordsAux, hc]] at hw
      refine ih (c :: acc) ?_ w hw
      intro x hx
      rcases List.mem_cons.mp hx with h | h
      · subst h; simpa using hc
      · exact hacc x h

lemma pyWords_good (s : List Char) : goodWords (pyWords s) :=
  fun w hw => pyWordsAux_good s [] (by simp) w hw

lemma spaceJoin_cons (w : List Char) (ws : List (List Char)) :
    spaceJoin (w :: ws) = w ++ (if ws = [] then [] else ' ' :: spaceJoin ws) := by
  cases ws <;> simp [spaceJoin]

lemma goodWords_cons {w : List Char} {ws : List (List Char)}
    (h : goodWords (w :: ws)) : goodWord w ∧ goodWords ws :=
  ⟨h w (by simp), fun x hx => h x (by simp [hx])⟩

lemma spaceJoin_mem {ws : List (List Char)} (h : goodWords ws) :
    ∀ c ∈ spaceJoin ws, c = ' ' ∨ pyIsSpace c = false := by
  induction ws with
  | nil => simp [spaceJoin]
  | cons w tl ih =>
    intro c hc
    rcases goodWords_cons h with ⟨hw, htl⟩
    rw [spaceJoin_cons] at hc
    rcases List.mem_append.mp hc with hc | hc
    · exact Or.inr (hw.2 c hc)
    · by_cases htl0 : tl = []
      · simp [htl0] at hc
      · simp [htl0] at hc
        rcases hc with hc | hc
        · exact Or.inl hc
        · exact ih htl c hc

lemma noDoubleSpace_append {w s : List Char}
    (hw : ∀ c ∈ w, c ≠ ' ') (hs : noDoubleSpace s = true) :
    noDoubleSpace (w ++ s) = true := by
  induction w with
  | nil => simpa using hs
  | cons c w ih =>
    have hc : c ≠ ' ' := hw c (by simp)
    have hw' : ∀ x ∈ w, x ≠ ' ' := fun x hx => hw x (by simp [hx])
    cases w with
    | nil =>
      cases s with
      | nil => simp [noDoubleSpace]
      | cons b s' =>
        simpa [noDoubleSpace, hc] using hs
    | cons c2 w' =>
      have h2 := ih hw'
      simpa [noDoubleSpace, hc] using h2

lemma spaceJoin_noDouble {ws : List (List Char)} (h : goodWords ws) :
    noDoubleSpace (spaceJoin ws) = true := by
  induction ws with
  | nil => simp [spaceJoin, noDoubleSpace]
  | cons w tl ih =>
    rcases goodWords_cons h with ⟨hw, htl⟩
    have hwc : ∀ c ∈ w, c ≠ ' ' := by
      intro c hc he
      subst he
      simpa [pyIsSpace_space] using hw.2 ' ' hc
    rw [spaceJoin_cons]
    by_cases htl0 : tl = []
    · subst htl0
      simpa using noDoubleSpace_append hwc (show noDoubleSpace [] = true from rfl)
    · rw [if_neg htl0]
      refine noDoubleSpace_append hwc ?_
      rcases tl with _ | ⟨x, tl'⟩
      · exact absurd rfl htl0
      · rcases goodWords_cons htl with ⟨hx, _⟩
        rcases x with _ | ⟨a, x'⟩
        · exact absurd rfl hx.1
        · have ha : (a == ' ') = false := by
            have : a ≠ ' ' := by
              intro he
              subst he
              simpa [pyIsSpace_space] using hx.2 ' ' (by simp)
            simpa using this
          have hsp : spaceJoin ((a :: x') :: tl') = a :: (x' ++
              (if tl' = [] then [] else ' ' :: spaceJoin tl')) := by
            rw [spaceJoin_cons]; simp
          have hnd := ih htl
          rw [hsp] at hnd
          rw [hsp]
          simpa [noDoubleSpace, ha] using hnd

lemma spaceJoin_head {ws : List (List Char)} (h : goodWords ws) :
    ∀ c, (spaceJoin ws).head? = some c → pyIsSpace c = false := by
  intro c hc
  rcases ws with _ | ⟨w, tl⟩
  · simp [spaceJoin] at hc
  · rcases goodWords_cons h with ⟨hw, _⟩
    rcases w with _ | ⟨a, w'⟩
    · exact absurd rfl hw.1
    · rw [show spaceJoin ((a :: w') :: tl) = a :: (w' ++
          (if tl = [] then [] else ' ' :: spaceJoin tl)) by
        rw [spaceJoin_cons]; simp] at hc
      simp at hc
      subst hc
      exact hw.2 a (by simp)

lemma spaceJoin_ne_nil {ws : List (List Char)} (h : goodWords ws)
    (hne : ws ≠ []) : spaceJoin ws ≠ [] := by
  rcases ws with _ | ⟨w, tl⟩
  · exact absurd rfl hne
  · rcases goodWords_cons h with ⟨hw, _⟩
    rw [spaceJoin_cons]
    intro he
    exact hw.1 (List.append_eq_nil.mp he).1

lemma spaceJoin_last {ws : List (List Char)} (h : goodWords ws) :
    ∀ c, (spaceJoin ws).getLast? = some c → pyIsSpace c = false := by
  induction ws with
  | nil => simp [spaceJoin]
  | cons w tl ih =>
    intro c hc
    rcases goodWords_cons h with ⟨hw, htl⟩
    by_cases htl0 : tl = []
    · subst htl0
      rw [spaceJoin_cons, if_pos rfl, List.append_nil] at hc
      have : c ∈ w := by
        have hx : c ∈ w.getLast? := by rw [hc]; rfl
        rcases List.mem_getLast?_eq_getLast hx with ⟨hne, he⟩
        exact he ▸ List.getLast_mem hne
      exact hw.2 c this
    · rw [spaceJoin_cons, if_neg htl0, List.getLast?_append] at hc
      have hnn : spaceJoin tl ≠ [] := spaceJoin_ne_nil htl htl0
      have : (' ' :: spaceJoin tl).getLast? = (spaceJoin tl).getLast? := by
        rw [show (' ' :: spaceJoin tl) = [' '] ++ spaceJoin tl by simp,
          List.getLast?_append]
        rcases hl : (spaceJoin tl).getLast? with _ | d
        · exact absurd (List.getLast?_eq_none_iff.mp hl) hnn
        · simp
      rw [this] at hc
      rcases hl : (spaceJoin tl).getLast? with _ | d
      · exact absurd (List.getLast?_eq_none_iff.mp hl) hnn
      · rw [hl] at hc
        have hdc : d = c := by simpa using hc
        exact hdc ▸ ih htl d hl

lemma pyWords_spaceJoin : ∀ ws : List (List Char), goodWords ws →
    pyWords (spaceJoin ws) = ws := by
  intro ws
  induction ws with
  | nil => intro _; simp [spaceJoin, pyWords, pyWordsAux]
  | cons w tl ih =>
    intro h
    rcases goodWords_cons h with ⟨hw, htl⟩
    by_cases htl0 : tl = []
    · subst htl0
      rw [spaceJoin_cons, if_pos rfl, List.append_nil]
      unfold pyWords
      rw [show w = w ++ ([] : List Char) by simp,
        pyWordsAux_append_word w hw.2 [] []]
      have : w.reverse ≠ [] := by simpa [List.reverse_eq_nil_iff] using hw.1
      simp [pyWordsAux, this, hw.1]
    · rw [spaceJoin_cons, if_neg htl0]
      unfold pyWords
      rw [pyWordsAux_append_word w hw.2 [] (' ' :: spaceJoin tl)]
      have hrev : w.reverse ++ [] ≠ [] := by
        simpa [List.reverse_eq_nil_iff] using hw.1
      rw [show pyWordsAux (w.reverse ++ []) (' ' :: spaceJoin tl) =
          (w.reverse ++ []).reverse :: pyWordsAux [] (spaceJoin tl) by
        simp [pyWordsAux, pyIsSpace_space, hrev, hw.1]]
      simpa using ih htl

/-- The output of the normalization is in single-line normal form. -/
lemma singleSpaced_normalizeL (s : List Char) : singleSpaced (normalizeL s) := by
  have hg := pyWords_good s
  refine ⟨?_, spaceJoin_noDouble hg, spaceJoin_head hg, spaceJoin_last hg⟩
  intro c hc hsp
  rcases spaceJoin_mem hg c hc with h | h
  · exact h
  · rw [hsp] at h
    exact absurd h (by simp)

lemma normalizeL_idem (s : List Char) :
    normalizeL (normalizeL s) = normalizeL s :=
  congrArg spaceJoin (pyWords_spaceJoin (pyWords s) (pyWords_good s))

lemma pyStripL_of_singleSpaced {l : List Char} (h : singleSpaced l) :
    pyStripL l = l := by
  rcases h with ⟨_, _, hh, hl⟩
  have h1 : l.dropWhile pyIsSpace = l := by
    rcases l with _ | ⟨a, l'⟩
    · rfl
    · have : pyIsSpace a = false := hh a rfl
      exact List.dropWhile_cons_of_neg (by simp [this])
  rw [pyStripL, h1]
  have h2 : l.reverse.dropWhile pyIsSpace = l.reverse := by
    rcases hr : l.reverse with _ | ⟨a, r'⟩
    · rfl
    · have ha : l.getLast? = some a := by
        rw [← List.head?_reverse, hr]; rfl
      have : pyIsSpace a = false := hl a ha
      exact List.dropWhile_cons_of_neg (by simp [this])
  rw [h2, List.reverse_reverse]

lemma pyStripL_normalizeL (s : List Char) :
    pyStripL (normalizeL s) = normalizeL s :=
  pyStripL_of_singleSpaced (singleSpaced_normalizeL s)

lemma singleSpaced_nil : singleSpaced [] :=
  ⟨by simp, rfl, by simp, by simp⟩

lemma pyStrip_normalize (s : String) : pyStrip (normalize s) = normalize s :=
  congrArg String.mk (pyStripL_normalizeL s.data)

lemma fallback_singleSpaced (parse : PdfParse) :
    singleSpaced (fallback_extract_text parse).1.data := by
  rcases parse with pages | msg
  · show singleSpaced (pyStrip (normalize (String.join pages))).data
    rw [pyStrip_normalize]
    exact singleSpaced_normalizeL (String.join pages).data
  · exact singleSpaced_nil

lemma bc1_ne_bc2 : ¬ (bc1 = bc2) := by decide

lemma splitBulletAux_nodelim : ∀ (f : List Char), containsDelim f = false →
    ∀ acc, splitBulletAux acc f = [acc.reverse ++ f] := by
  intro f
  induction f with
  | nil => intro _ acc; simp [splitBulletAux]
  | cons c f ih =>
    intro hf acc
    cases f with
    | nil => simp [splitBulletAux]
    | cons c2 f =>
      simp only [containsDelim, Bool.or_eq_false_iff, Bool.and_eq_false_iff] at hf
      have hcond : ¬ (c = bc1 ∧ c2 = bc2) := by
        intro ⟨ha, hb⟩
        rcases hf.1 with h | h <;> simp [ha, hb] at h
      rw [show splitBulletAux acc (c :: c2 :: f) =
          splitBulletAux (c :: acc) (c2 :: f) by
        simp only [splitBulletAux]; rw [if_neg hcond]]
      rw [ih hf.2 (c :: acc)]
      simp

lemma splitBulletAux_delim : ∀ (f : List Char), containsDelim f = false →
    ∀ acc r, splitBulletAux acc (f ++ bc1 :: bc2 :: r) =
      (acc.reverse ++ f) :: splitBulletAux [] r := by
  intro f
  induction f with
  | nil =>
    intro _ acc r
    simp only [List.nil_append]
    simp only [splitBulletAux]
    simp
  | cons c f ih =>
    intro hf acc r
    cases f with
    | nil =>
      simp only [List.cons_append, List.nil_append]
      rw [show splitBulletAux acc (c :: bc1 :: bc2 :: r) =
          splitBulletAux (c :: acc) (bc1 :: bc2 :: r) by
        simp only [splitBulletAux]
        rw [if_neg (fun h => bc1_ne_bc2 h.2)]]
      rw [show splitBulletAux (c :: acc) (bc1 :: bc2 :: r) =
          (c :: acc).reverse :: splitBulletAux [] r by
        simp only [splitBulletAux]; simp]
      simp
    | cons c2 f =>
      simp only [containsDelim, Bool.or_eq_false_iff, Bool.and_eq_false_iff] at hf
      have hcond : ¬ (c = bc1 ∧ c2 = bc2) := by
        intro ⟨ha, hb⟩
        rcases hf.1 with h | h <;> simp [ha, hb] at h
      simp only [List.cons_append]
      rw [show splitBulletAux acc (c :: c2 :: (f ++ bc1 :: bc2 :: r)) =
          splitBulletAux (c :: acc) (c2 :: (f ++ bc1 :: bc2 :: r)) by
        simp only [splitBulletAux]; rw [if_neg hcond]]
      rw [show (c2 :: (f ++ bc1 :: bc2 :: r)) =
          ((c2 :: f) ++ bc1 :: bc2 :: r) by simp]
      rw [ih hf.2 (c :: acc) r]
      simp

lemma splitBullet_words (f1 f2 f3 : List Char)
    (h1 : containsDelim f1 = false) (h2 : containsDelim f2 = false)
    (h3 : containsDelim f3 = false) :
    splitBullet (f1 ++ bulletDelim ++ f2 ++ bulletDelim ++ f3) = [f1, f2, f3] := by
  unfold splitBullet
  rw [show f1 ++ bulletDelim ++ f2 ++ bulletDelim ++ f3 =
      f1 ++ bc1 :: bc2 :: (f2 ++ bc1 :: bc2 :: f3) by
    simp [bulletDelim]]
  rw [splitBulletAux_delim f1 h1 [] (f2 ++ bc1 :: bc2 :: f3)]
  rw [splitBulletAux_delim f2 h2 [] f3]
  rw [splitBulletAux_nodelim f3 h3 []]
  simp

lemma filterMap_if {α β : Type} (p : α → Prop) [DecidablePred p] (g : α → β) :
    ∀ xs : List α, (xs.filterMap fun x => if p x then none else some (g x)) =
      (xs.filter fun x => ¬ p x).map g := by
  intro xs
  induction xs with
  | nil => rfl
  | cons x xs ih =>
    by_cases h : p x <;>
      simp [List.filterMap_cons, List.filter_cons, h, ih]

lemma questionnaireItems_shape (q : String) :
    ∀ b ∈ questionnaireItems q, ∃ t, b = "- " ++ t ++ "\n" := by
  intro b hb
  rcases List.mem_filterMap.mp hb with ⟨line, _, he⟩
  by_cases h : pyStripL line = []
  · simp [h] at he
  · rw [if_neg h] at he
    exact ⟨String.mk (pyStripL line), (Option.some_inj.mp he).symm⟩

lemma nocItems_shape (nocs : List String) :
    ∀ b ∈ nocItems nocs, ∃ t, b = "- " ++ t ++ "\n" := by
  intro b hb
  rcases List.mem_map.mp hb with ⟨noc, _, he⟩
  exact ⟨pyStrip noc, he.symm⟩

/-- C1: for every input string, the normalization used by the extraction
functions produces a single-line string: the only whitespace character in
the output is the plain space, no two spaces are adjacent, the output has
no leading or trailing whitespace, and it contains no newline or tab. -/
theorem claim_C1 (s : String) :
    singleSpaced (normalize s).data ∧
    '\n' ∉ (normalize s).data ∧ '\t' ∉ (normalize s).data := by
  have h := singleSpaced_normalizeL s.data
  refine ⟨h, ?_, ?_⟩ <;> intro hmem
  · exact absurd (h.1 '\n' hmem (by decide)) (by decide)
  · exact absurd (h.1 '\t' hmem (by decide)) (by decide)

theorem claim_C1_witness :
    singleSpaced (normalize ("  a \n\t b   c  ")).data ∧
    '\n' ∉ (normalize ("  a \n\t b   c  ")).data ∧
    '\t' ∉ (normalize ("  a \n\t b   c  ")).data :=
  claim_C1 ("  a \n\t b   c  ")

/-- C2: for every dictionary, `convert_dict_to_markdown` emits the title
heading and then the five section headings in the fixed order, with only
list items (blocks of the shape `- ...\n`) between a heading and the next
fixed block; the defaulted field values appear even when every key is
absent, so absence is not an error (second conjunct: the all-absent
dictionary still produces all six headings with empty-string defaults). -/
theorem claim_C2 :
    (∀ d : RoadmapDict, ∃ qs ns : List String,
      convert_dict_to_markdown_blocks d =
        ["# Immigration Profile Report\n",
         "## 1. Questionnaire and Response:\n"] ++ qs ++
        ["## 2. Job Roles Based on Education and Work Experience:\n",
         d.job_roles.getD ("") ++ "\n",
         "## 3. NOC Codes:\n"] ++ ns ++
        ["## 4. CRS Score Breakdown:\n",
         d.crs_score.getD ("") ++ "\n",
         "## 5. Roadmap for Canada Immigration:\n",
         d.roadmap.getD ("") ++ "\n"] ∧
      (∀ b ∈ qs, ∃ t, b = "- " ++ t ++ "\n") ∧
      (∀ b ∈ ns, ∃ t, b = "- " ++ t ++ "\n")) ∧
    convert_dict_to_markdown_blocks (RoadmapDict.mk none none none none none) =
      ["# Immigration Profile Report\n",
       "## 1. Questionnaire and Response:\n",
       "## 2. Job Roles Based on Education and Work Experience:\n",
       "\n",
       "## 3. NOC Codes:\n",
       "## 4. CRS Score Breakdown:\n",
       "\n",
       "## 5. Roadmap for Canada Immigration:\n",
       "\n"] := by
  constructor
  · intro d
    exact ⟨questionnaireItems (d.questionnaire.getD ("")),
      nocItems (d.noc_codes.getD []), rfl,
      questionnaireItems_shape _, nocItems_shape _⟩
  · rfl

/-- C3: the roadmap client returns the parsed body on 200; on 404 it
reports the data-not-found error and returns `none`; on any other non-200
status it reports `API Error: <status>` and returns `none`; on an
exception it reports the error and returns `none`. -/
theorem claim_C3 (status : Nat) (body : RoadmapDict) (msg : String)
    (h200 : status ≠ 200) (h404 : status ≠ 404) :
    call_visa_roadmap_api (.response 200 body) = (some body, []) ∧
    call_visa_roadmap_api (.response 404 body) =
      (none, [Effect.error ("API Error: Data Not Found (404)")]) ∧
    call_visa_roadmap_api (.response status body) =
      (none, [Effect.error ("API Error: " ++ toString status)]) ∧
    call_visa_roadmap_api (.raised msg) =
      (none, [Effect.error ("API Error: " ++ msg)]) := by
  refine ⟨rfl, rfl, ?_, rfl⟩
  simp [call_visa_roadmap_api, h200, h404]

theorem claim_C3_witness :
    (500 ≠ 200) ∧ (500 ≠ 404) ∧
    call_visa_roadmap_api (.response 500 (RoadmapDict.mk none none none none none)) =
      (none, [Effect.error ("API Error: 500")]) :=
  ⟨by decide, by decide,
    (claim_C3 500 (RoadmapDict.mk none none none none none) ("x")
      (by decide) (by decide)).2.2.1⟩

/-- C4 (amended): on a non-200 OCR response or an OCR exception
`extract_text_from_pdf` delegates to `fallback_extract_text` and still
returns a single-line normalized (possibly empty) string, but the
non-fatal warning is emitted only when the fallback is triggered by an
exception; on a non-200 response the fallback runs without a warning. -/
theorem claim_C4 (status : Nat) (tf : Option String) (parse : PdfParse)
    (msg : String) (h : status ≠ 200) :
    extract_text_from_pdf (.response status tf) parse =
      fallback_extract_text parse ∧
    (extract_text_from_pdf (.raised msg) parse).1 =
      (fallback_extract_text parse).1 ∧
    (extract_text_from_pdf (.raised msg) parse).2 =
      Effect.warning ("Using fallback PDF extraction method") ::
        (fallback_extract_text parse).2 ∧
    singleSpaced (extract_text_from_pdf (.response status tf) parse).1.data := by
  have h1 : extract_text_from_pdf (.response status tf) parse =
      fallback_extract_text parse := by
    simp [extract_text_from_pdf, h]
  refine ⟨h1, rfl, rfl, ?_⟩
  rw [h1]
  exact fallback_singleSpaced parse

theorem claim_C4_witness :
    (500 ≠ 200) ∧
    extract_text_from_pdf (.response 500 (some ("x"))) (.raised ("bad pdf")) =
      fallback_extract_text (.raised ("bad pdf")) ∧
    (extract_text_from_pdf (.raised ("net down")) (.raised ("bad pdf"))).2 =
      Effect.warning ("Using fallback PDF extraction method") ::
        (fallback_extract_text (.raised ("bad pdf"))).2 :=
  ⟨by decide,
    (claim_C4 500 (some ("x")) (.raised ("bad pdf")) ("net down") (by decide)).1,
    (claim_C4 500 (some ("x")) (.raised ("bad pdf")) ("net down") (by decide)).2.2.1⟩

/-- C4 as stated by the spec is false on the code: on a non-200 OCR
response the fallback result is returned but the effect list is empty, so
no user-visible warning is emitted although the fallback was used. -/
theorem claim_C4_counterexample :
    (extract_text_from_pdf (.response 500 none) (.ok [("hi  there")])).1 =
      (fallback_extract_text (.ok [("hi  there")])).1 ∧
    (extract_text_from_pdf (.response 500 none) (.ok [("hi  there")])).2 = [] :=
  ⟨rfl, rfl⟩

/-- C5: when local PDF parsing raises, `fallback_extract_text` reports the
extraction error to the user and returns the empty string (the exception
is not propagated: the function is total and yields this pair). -/
theorem claim_C5 (msg : String) :
    fallback_extract_text (.raised msg) =
      ("", [Effect.error ("Error in text extraction: " ++ msg)]) := rfl

theorem claim_C5_witness :
    fallback_extract_text (.raised ("bad pdf")) =
      ("", [Effect.error ("Error in text extraction: " ++ "bad pdf")]) :=
  claim_C5 ("bad pdf")

/-- C6: the normalization is idempotent. -/
theorem claim_C6 (s : String) : normalize (normalize s) = normalize s :=
  congrArg String.mk (normalizeL_idem s.data)

theorem claim_C6_witness :
    normalize (normalize ("a  b\nc")) = normalize ("a  b\nc") :=
  claim_C6 ("a  b\nc")

/-- C7: when `noc_codes` is the empty sequence, the NOC Codes heading is
emitted with zero list items: the block after it is directly the next
section heading. -/
theorem claim_C7 (d : RoadmapDict) (h : d.noc_codes = some []) :
    nocItems (d.noc_codes.getD []) = [] ∧
    ∃ pre post, convert_dict_to_markdown_blocks d =
      pre ++ "## 3. NOC Codes:\n" :: "## 4. CRS Score Breakdown:\n" :: post := by
  have h0 : d.noc_codes.getD [] = [] := by rw [h]; rfl
  refine ⟨by simp [nocItems, h0],
    ["# Immigration Profile Report\n", "## 1. Questionnaire and Response:\n"] ++
      questionnaireItems (d.questionnaire.getD ("")) ++
      ["## 2. Job Roles Based on Education and Work Experience:\n",
       d.job_roles.getD ("") ++ "\n"],
    [d.crs_score.getD ("") ++ "\n", "## 5. Roadmap for Canada Immigration:\n",
     d.roadmap.getD ("") ++ "\n"], ?_⟩
  simp [convert_dict_to_markdown_blocks, nocItems, h0]

theorem claim_C7_witness :
    (RoadmapDict.mk none none (some []) none none).noc_codes = some [] ∧
    (nocItems ((RoadmapDict.mk none none (some []) none none).noc_codes.getD []) = [] ∧
      ∃ pre post, convert_dict_to_markdown_blocks
          (RoadmapDict.mk none none (some []) none none) =
        pre ++ "## 3. NOC Codes:\n" :: "## 4. CRS Score Breakdown:\n" :: post) :=
  ⟨rfl, claim_C7 (RoadmapDict.mk none none (some []) none none) rfl⟩

/-- C8: a questionnaire string made of exactly three delimiter-free
fragments separated by the bullet delimiter, each nonempty after
stripping, yields exactly the three corresponding stripped list items. -/
theorem claim_C8 (f1 f2 f3 : List Char)
    (h1 : containsDelim f1 = false) (h2 : containsDelim f2 = false)
    (h3 : containsDelim f3 = false)
    (n1 : ¬ pyStripL f1 = []) (n2 : ¬ pyStripL f2 = [])
    (n3 : ¬ pyStripL f3 = []) :
    questionnaireItems ⟨f1 ++ bulletDelim ++ f2 ++ bulletDelim ++ f3⟩ =
      ["- " ++ String.mk (pyStripL f1) ++ "\n",
       "- " ++ String.mk (pyStripL f2) ++ "\n",
       "- " ++ String.mk (pyStripL f3) ++ "\n"] := by
  unfold questionnaireItems
  rw [show (String.mk (f1 ++ bulletDelim ++ f2 ++ bulletDelim ++ f3)).data =
      f1 ++ bulletDelim ++ f2 ++ bulletDelim ++ f3 from rfl]
  rw [splitBullet_words f1 f2 f3 h1 h2 h3]
  simp [List.filterMap_cons, n1, n2, n3]

theorem claim_C8_witness :
    containsDelim ("A").data = false ∧ containsDelim (" B ").data = false ∧
    containsDelim ("C").data = false ∧
    ¬ pyStripL ("A").data = [] ∧ ¬ pyStripL (" B ").data = [] ∧
    ¬ pyStripL ("C").data = [] ∧
    questionnaireItems
        ⟨("A").data ++ bulletDelim ++ (" B ").data ++ bulletDelim ++ ("C").data⟩ =
      ["- " ++ String.mk (pyStripL ("A").data) ++ "\n",
       "- " ++ String.mk (pyStripL (" B ").data) ++ "\n",
       "- " ++ String.mk (pyStripL ("C").data) ++ "\n"] :=
  ⟨by decide, by decide, by decide, by decide, by decide, by decide,
    claim_C8 ("A").data (" B ").data ("C").data
      (by decide) (by decide) (by decide) (by decide) (by decide) (by decide)⟩

/-- C9: on HTTP 200 with a body lacking the `text` field, extraction
returns the empty string with no effects, independently of what the local
fallback would do — the fallback is not invoked. -/
theorem claim_C9 (parse : PdfParse) :
    extract_text_from_pdf (.response 200 none) parse = ("", []) := rfl

theorem claim_C9_witness :
    extract_text_from_pdf (.response 200 none) (.raised ("bad pdf")) = ("", []) :=
  claim_C9 (.raised ("bad pdf"))

/-- C10: questionnaire fragments that strip to empty are filtered out,
while every `noc_codes` entry produces an item — a whitespace-only entry
yields the empty item `- \n`. -/
theorem claim_C10 (q : String) (nocs : List String) (s : String)
    (h : pyStripL s.data = []) :
    questionnaireItems q =
      ((splitBullet q.data).filter fun l => ¬ pyStripL l = []).map
        (fun l => "- " ++ String.mk (pyStripL l) ++ "\n") ∧
    (nocItems nocs).length = nocs.length ∧
    nocItem s = "- \n" := by
  refine ⟨filterMap_if _ _ _, by simp [nocItems], ?_⟩
  show "- " ++ pyStrip s ++ "\n" = "- \n"
  rw [pyStrip, h]
  rfl

theorem claim_C10_witness :
    pyStripL (" \n ").data = [] ∧
    (nocItems [("x"), (" \n ")]).length = 2 ∧
    nocItem (" \n ") = "- \n" :=
  ⟨by decide,
    (claim_C10 ("a") [("x"), (" \n ")] (" \n ") (by decide)).2.1,
    (claim_C10 ("a") [("x"), (" \n ")] (" \n ") (by decide)).2.2⟩

end VisaRoadmap
